import Mathlib

/-!
Shallow embedding of the teloc dependency-injection core
(src/teloc/src/container.rs, src/teloc/src/actix_support.rs,
src/teloc/src/lib.rs) and proofs of its specification's testable
properties.

Effectful thunks (the `get_deps: F: Fn() -> Deps` closures supplied by the
Resolver) are embedded as explicit state transformers `σ → Deps × σ`: the
state `σ` records whatever side effects the recursive dependency
resolution performs (e.g. a constructor-invocation counter or a fresh
allocation counter), so "the thunk is invoked exactly once" and "the thunk
is never invoked" become provable statements about the final state.
-/

namespace Teloc

/-- Embedding of `once_cell::sync::OnceCell<T>::get_or_init` (sequential
semantics): when the cell already holds a value, return it and leave the
cell and the world state untouched; otherwise run `f`, store its result,
and return the freshly stored value. The cell content is `Option T`;
`none` is an empty cell. -/
def OnceCell.get_or_init {T σ : Type} (cell : Option T) (f : σ → T × σ) (s : σ) :
    T × Option T × σ :=
  match cell with
  | some v => (v, some v, s)
  | none =>
    match f s with
    | (v, s1) => (v, some v, s1)

/-- `TransientContainer::resolve_container` (container.rs:26-28):
`T::init(get_deps())` — call the thunk, pass its result straight to the
type's declared constructor `init`; the container retains no state. -/
def TransientContainer.resolve_container {T Deps σ : Type} (init : Deps → T)
    (get_deps : σ → Deps × σ) (s : σ) : T × σ :=
  match get_deps s with
  | (d, s1) => (init d, s1)

/-- `TransientFactoryContainer::resolve_container` (container.rs:52-54):
`self.2(get_deps())` — the constructor is the supplied factory `body`. -/
def TransientFactoryContainer.resolve_container {T Deps σ : Type} (body : Deps → T)
    (get_deps : σ → Deps × σ) (s : σ) : T × σ :=
  match get_deps s with
  | (d, s1) => (body d, s1)

/-- `SingletonContainer::resolve_container` (container.rs:86-88):
`self.get().get_or_init(|| T::init(get_deps()))`. The returned value is the
content of the container's once-cell; the new cell content is returned as
well since the embedding threads the cell explicitly. -/
def SingletonContainer.resolve_container {T Deps σ : Type} (init : Deps → T)
    (cell : Option T) (get_deps : σ → Deps × σ) (s : σ) : T × Option T × σ :=
  OnceCell.get_or_init cell
    (fun s0 =>
      match get_deps s0 with
      | (d, s1) => (init d, s1)) s

/-- `SingletonFactoryContainer::resolve_container` (container.rs:127-129):
`self.1.get_or_init(|| self.2(get_deps()))` — same once-cell lifecycle with
the supplied factory `body` in place of the declared constructor. -/
def SingletonFactoryContainer.resolve_container {T Deps σ : Type} (body : Deps → T)
    (cell : Option T) (get_deps : σ → Deps × σ) (s : σ) : T × Option T × σ :=
  OnceCell.get_or_init cell
    (fun s0 =>
      match get_deps s0 with
      | (d, s1) => (body d, s1)) s

/-- `InstanceContainer::resolve_container` (container.rs:174-176): the
thunk parameter is ignored (never invoked) and the pre-supplied value
`c = self.0` is returned. The dependency tuple type is `HNil`, embedded as
`Unit`. -/
def InstanceContainer.resolve_container {T σ : Type} (c : T)
    (_get_deps : σ → Unit × σ) (s : σ) : T × σ :=
  (c, s)

/-- `Resolver for InstanceContainer` by value (container.rs:184-186):
`InstanceContainer::resolve_container(self.get(), || HNil).clone()` — the
`DependencyClone` duplication capability is the extra `clone` parameter. -/
def InstanceContainer.resolve_value {T σ : Type} (clone : T → T) (c : T)
    (get_deps : σ → Unit × σ) (s : σ) : T × σ :=
  match InstanceContainer.resolve_container c get_deps s with
  | (v, s1) => (clone v, s1)

/-- `ConvertContainer::resolve_container` (container.rs:214-216):
`Cont::resolve_container(&self.0, deps).into()` — delegate to the inner
container's resolve (the inner container is given by its resolve function,
its own state folded into `σ`), then apply the total conversion
`convert = Into::into` to the result. -/
def ConvertContainer.resolve_container {T U Deps σ : Type}
    (inner : (σ → Deps × σ) → σ → T × σ) (convert : T → U)
    (get_deps : σ → Deps × σ) (s : σ) : U × σ :=
  match inner get_deps s with
  | (t, s1) => (convert t, s1)

/-- Iterated resolution of one `SingletonContainer` from the same registry:
perform `n` successive `resolve_container` calls, threading the once-cell
and the world state, collecting the returned references. -/
def SingletonContainer.resolve_iter {T Deps σ : Type} (init : Deps → T)
    (get_deps : σ → Deps × σ) :
    Nat → Option T → σ → List T × Option T × σ
  | 0, cell, s => ([], cell, s)
  | n + 1, cell, s =>
    match SingletonContainer.resolve_container init cell get_deps s with
    | (v, c1, s1) =>
      match SingletonContainer.resolve_iter init get_deps n c1 s1 with
      | (vs, c2, s2) => (v :: vs, c2, s2)

/-- A store of mutable memory cells addressed by `Nat` locations, used to
state identity/independence properties (two resolution results are
independent when they live at distinct locations, so writing through one
does not change the other). -/
def Store (V : Type) := Nat → V

/-- Write `v` at location `l`, leaving every other location unchanged. -/
def Store.write {V : Type} (st : Store V) (l : Nat) (v : V) : Store V :=
  fun l2 => if l2 = l then v else st l2

end Teloc

namespace Teloc

/-- Helper: resolving an already-initialized singleton cell returns the
stored value and changes nothing, for every thunk and every state. -/
theorem SingletonContainer.resolve_container_initialized {T Deps σ : Type}
    (init : Deps → T) (v : T) (get_deps : σ → Deps × σ) (s : σ) :
    SingletonContainer.resolve_container init (some v) get_deps s = (v, some v, s) := by
  rfl

/-- Helper: iterating resolution on an initialized cell returns `n` copies
of the stored reference and touches neither the cell nor the state. -/
theorem SingletonContainer.resolve_iter_initialized {T Deps σ : Type}
    (init : Deps → T) (get_deps : σ → Deps × σ) (n : Nat) (v : T) (s : σ) :
    SingletonContainer.resolve_iter init get_deps n (some v) s
      = (List.replicate n v, some v, s) := by
  induction n with
  | zero => rfl
  | succ m ih =>
    simp [SingletonContainer.resolve_iter,
      SingletonContainer.resolve_container_initialized, ih, List.replicate]

end Teloc

namespace Teloc

/-- C1: for a singleton provider, any number `n ≥ 1` of successive
resolutions of its declared type from the same registry all return the one
value stored in the container's once-cell (the same storage: the cell is
written on the first resolution and never changes afterwards, and every
returned reference is its content), and the stored constructor runs exactly
once across all `n` resolutions — the state counter counts the invocations
of the `|| T::init(get_deps())` thunk and ends at `1`. -/
theorem singleton_identity (T Deps : Type) (init : Deps → T) (d0 : Deps)
    (n : Nat) (h : 1 ≤ n) :
    SingletonContainer.resolve_iter init (fun k => (d0, k + 1)) n none 0
      = (List.replicate n (init d0), some (init d0), 1) := by
  cases n with
  | zero => exact absurd h (by decide)
  | succ m =>
    have h1 : SingletonContainer.resolve_container init (none : Option T)
        (fun k => (d0, k + 1)) 0 = (init d0, some (init d0), 1) := rfl
    simp [SingletonContainer.resolve_iter, h1,
      SingletonContainer.resolve_iter_initialized, List.replicate]

/-- Witness for C1 at `n = 2` with a concrete constructor. -/
theorem singleton_identity_witness :
    1 ≤ 2 ∧
    SingletonContainer.resolve_iter (fun _ : Unit => (7 : Nat))
        (fun k => ((), k + 1)) 2 none 0
      = (List.replicate 2 7, some 7, 1) :=
  ⟨by decide, singleton_identity Nat Unit (fun _ => 7) () 2 (by decide)⟩

/-- C3: single-resolution get-or-init semantics, for both the
declared-constructor and the factory singleton variants: on an already
initialized cell the stored reference is returned with the cell and the
world state untouched (so the `get_deps` thunk is never invoked — the
result is the same for every thunk and every state); on an empty cell the
thunk is invoked exactly once, the constructor applied to its result, the
value stored, and the freshly stored value returned. -/
theorem singleton_get_or_init_semantics (T Deps σ : Type)
    (init body : Deps → T) (v : T) (get_deps : σ → Deps × σ) (s : σ) :
    SingletonContainer.resolve_container init (some v) get_deps s = (v, some v, s)
    ∧ SingletonFactoryContainer.resolve_container body (some v) get_deps s = (v, some v, s)
    ∧ SingletonContainer.resolve_container init none get_deps s
        = (init (get_deps s).1, some (init (get_deps s).1), (get_deps s).2)
    ∧ SingletonFactoryContainer.resolve_container body none get_deps s
        = (body (get_deps s).1, some (body (get_deps s).1), (get_deps s).2) := by
  refine ⟨rfl, rfl, ?_, ?_⟩ <;>
  · rcases hg : get_deps s with ⟨d, s1⟩
    simp [SingletonContainer.resolve_container,
      SingletonFactoryContainer.resolve_container, OnceCell.get_or_init, hg]

/-- C4: each transient resolution invokes the thunk and passes its result
straight to the constructor, retaining no provider state (first conjunct,
for every constructor, thunk and state); and two resolutions of the same
transient type from the same registry yield values of independent identity:
with construction modeled as drawing a fresh location from an allocation
counter, the two results live at distinct locations, so writing through
the first leaves the second's cell unchanged (second conjunct). -/
theorem transient_independence :
    (∀ (T Deps σ : Type) (init : Deps → T) (get_deps : σ → Deps × σ) (s : σ),
      TransientContainer.resolve_container init get_deps s
        = (init (get_deps s).1, (get_deps s).2))
    ∧ ∀ (s : Nat) (st : Store Int) (w : Int),
      (TransientContainer.resolve_container (fun d : Nat => d)
          (fun k => (k, k + 1)) s).1
        ≠ (TransientContainer.resolve_container (fun d : Nat => d)
            (fun k => (k, k + 1))
            (TransientContainer.resolve_container (fun d : Nat => d)
              (fun k => (k, k + 1)) s).2).1
      ∧ Store.write st
          (TransientContainer.resolve_container (fun d : Nat => d)
            (fun k => (k, k + 1)) s).1 w
          ((TransientContainer.resolve_container (fun d : Nat => d)
            (fun k => (k, k + 1))
            (TransientContainer.resolve_container (fun d : Nat => d)
              (fun k => (k, k + 1)) s).2).1)
        = st ((TransientContainer.resolve_container (fun d : Nat => d)
            (fun k => (k, k + 1))
            (TransientContainer.resolve_container (fun d : Nat => d)
              (fun k => (k, k + 1)) s).2).1) := by
  refine ⟨?_, ?_⟩
  · intro T Deps σ init get_deps s
    rcases hg : get_deps s with ⟨d, s1⟩
    simp [TransientContainer.resolve_container, hg]
  · intro s st w
    refine ⟨by simp [TransientContainer.resolve_container], ?_⟩
    simp [TransientContainer.resolve_container, Store.write]

/-- C6: resolving `U` through the Conversion wrapper yields exactly
`convert` applied to the result of resolving `T` through the inner
provider, and leaves exactly the final state the inner resolution leaves
(same side effects, e.g. the same singleton construction count), for every
inner provider; the conversion function is a total Lean function, so its
failure is not modeled. -/
theorem conversion_composition (T U Deps σ : Type)
    (inner : (σ → Deps × σ) → σ → T × σ) (convert : T → U)
    (get_deps : σ → Deps × σ) (s : σ) :
    ConvertContainer.resolve_container inner convert get_deps s
      = (convert (inner get_deps s).1, (inner get_deps s).2) := by
  rcases hg : inner get_deps s with ⟨t, s1⟩
  simp [ConvertContainer.resolve_container, hg]

/-- C7: a transient factory resolution yields the supplied function applied
to the independently resolved dependency tuple (first conjunct), and the
factory variants of Transient and Singleton have lifecycle semantics
identical to their non-factory counterparts with the factory in place of
the declared constructor (second and third conjuncts). -/
theorem factory_equivalence (T Deps σ : Type) (body : Deps → T)
    (get_deps : σ → Deps × σ) (s : σ) (cell : Option T) :
    TransientFactoryContainer.resolve_container body get_deps s
      = (body (get_deps s).1, (get_deps s).2)
    ∧ TransientFactoryContainer.resolve_container body get_deps s
      = TransientContainer.resolve_container body get_deps s
    ∧ SingletonFactoryContainer.resolve_container body cell get_deps s
      = SingletonContainer.resolve_container body cell get_deps s := by
  refine ⟨?_, rfl, rfl⟩
  rcases hg : get_deps s with ⟨d, s1⟩
  simp [TransientFactoryContainer.resolve_container, hg]

/-- C5: an instance provider never invokes the `get_deps` thunk (the
result and the state are the same for every thunk), resolution by
reference returns exactly the value supplied at registration, and
resolution by value returns its duplicate, equal in content when the
duplication capability is content-preserving. -/
theorem instance_passthrough (T σ : Type) (c : T) (clone : T → T)
    (get_deps : σ → Unit × σ) (s : σ) (hclone : ∀ t, clone t = t) :
    InstanceContainer.resolve_container c get_deps s = (c, s)
    ∧ InstanceContainer.resolve_value clone c get_deps s = (c, s) := by
  refine ⟨rfl, ?_⟩
  simp [InstanceContainer.resolve_value, InstanceContainer.resolve_container, hclone]

/-- Witness for C5 with a concrete registered value and the identity
duplication. -/
theorem instance_passthrough_witness :
    (∀ t : Nat, (fun x : Nat => x) t = t) ∧
    (InstanceContainer.resolve_container 5 (fun u : Unit => ((), u)) () = (5, ())
      ∧ InstanceContainer.resolve_value (fun x : Nat => x) 5
          (fun u : Unit => ((), u)) () = (5, ())) :=
  ⟨fun _ => rfl,
    instance_passthrough Nat Unit 5 (fun x => x) (fun u => ((), u)) () (fun _ => rfl)⟩

end Teloc

namespace Teloc

/-- Observable events in the lifetime of an `SpFuture` (the Scoped Async
Owner, actix_support.rs:92-142): a poll of the bundled computation, and
the four teardown steps its `PinnedDrop` performs — run the destructor of
the computation (`drop_in_place(self.fut)`), free its heap allocation
(`dealloc(self.fut)`), run the destructor of the registry
(`drop_in_place(self.sp)`), free its heap allocation (`dealloc(self.sp)`). -/
inductive SpEvent where
  | pollStep : SpEvent
  | dropFut : SpEvent
  | deallocFut : SpEvent
  | dropSp : SpEvent
  | deallocSp : SpEvent
deriving DecidableEq

/-- `PinnedDrop for SpFuture` (actix_support.rs:116-124), as the event
trace of its body, in source order: destroy the computation, free it, then
destroy the registry, free it. -/
def SpFuture.dropTrace : List SpEvent :=
  [SpEvent.dropFut, SpEvent.deallocFut, SpEvent.dropSp, SpEvent.deallocSp]

/-- How a task can stop driving the owner: the computation was polled to
completion, or the surrounding task was cancelled early. -/
inductive ExitPath where
  | normal : ExitPath
  | cancelled : ExitPath

/-- Full event trace of one `SpFuture` lifetime: `n` polls (fewer when the
task is cancelled early, but any `n` is allowed for either path) followed
by the drop glue, which the host runs on every exit path when the pinned
box is destroyed. -/
def SpFuture.lifecycleTrace : ExitPath → Nat → List SpEvent
  | _, n => List.replicate n SpEvent.pollStep ++ SpFuture.dropTrace

/-- Number of occurrences of an event in a trace. -/
def countEvent (a : SpEvent) : List SpEvent → Nat
  | [] => 0
  | b :: tr => (if b = a then 1 else 0) + countEvent a tr

/-- `a` occurs strictly before `b` in the trace. -/
def occursBefore (a b : SpEvent) (tr : List SpEvent) : Prop :=
  ∃ t1 t2 t3, tr = t1 ++ a :: (t2 ++ b :: t3)

/-- State of an `SpFuture` as seen by `poll`: the raw pointer to the
heap-allocated forked registry, the pointer to the heap-allocated inner
computation, and the computation's current state (what the pointee holds). -/
structure SpFutureState (σf : Type) where
  spPtr : Nat
  futPtr : Nat
  futState : σf

/-- `Future for SpFuture::poll` (actix_support.rs:133-141): project the
inner computation pointer, poll the pointee, and return its result
unchanged; nothing else of the owner is read or written. The inner
computation is a step function `σf → α × σf` (its `Poll` result paired
with its advanced state). -/
def SpFuture.poll {σf α : Type} (inner : σf → α × σf)
    (st : SpFutureState σf) : α × SpFutureState σf :=
  match inner st.futState with
  | (r, f1) => (r, { st with futState := f1 })

end Teloc

namespace Teloc

/-- Helper: an event other than `pollStep` never occurs among the polls. -/
theorem countEvent_replicate_poll (a : SpEvent) (n : Nat)
    (h : a ≠ SpEvent.pollStep) :
    countEvent a (List.replicate n SpEvent.pollStep) = 0 := by
  induction n with
  | zero => rfl
  | succ m ih =>
    simp [List.replicate, countEvent, ih]
    intro hc
    exact absurd hc.symm h

/-- Helper: `countEvent` distributes over concatenation. -/
theorem countEvent_append (a : SpEvent) (t1 t2 : List SpEvent) :
    countEvent a (t1 ++ t2) = countEvent a t1 + countEvent a t2 := by
  induction t1 with
  | nil => simp [countEvent]
  | cons b tr ih => simp [countEvent, ih]; omega

/-- C2: on every exit path (normal completion or early cancellation) and
after any number of polls, the Scoped Async Owner's lifetime trace tears
down the computation strictly before the registry: each of the four
teardown steps happens exactly once (so neither allocation is leaked or
double-freed), the computation's destructor and deallocation both precede
the registry's destructor, and within each allocation the destructor runs
before the deallocation. -/
theorem scoped_owner_teardown (e : ExitPath) (n : Nat) :
    countEvent SpEvent.dropFut (SpFuture.lifecycleTrace e n) = 1
    ∧ countEvent SpEvent.deallocFut (SpFuture.lifecycleTrace e n) = 1
    ∧ countEvent SpEvent.dropSp (SpFuture.lifecycleTrace e n) = 1
    ∧ countEvent SpEvent.deallocSp (SpFuture.lifecycleTrace e n) = 1
    ∧ occursBefore SpEvent.dropFut SpEvent.deallocFut (SpFuture.lifecycleTrace e n)
    ∧ occursBefore SpEvent.deallocFut SpEvent.dropSp (SpFuture.lifecycleTrace e n)
    ∧ occursBefore SpEvent.dropSp SpEvent.deallocSp (SpFuture.lifecycleTrace e n) := by
  refine ⟨?_, ?_, ?_, ?_, ?_, ?_, ?_⟩
  · rw [SpFuture.lifecycleTrace, countEvent_append,
      countEvent_replicate_poll _ _ (by decide)]
    rfl
  · rw [SpFuture.lifecycleTrace, countEvent_append,
      countEvent_replicate_poll _ _ (by decide)]
    rfl
  · rw [SpFuture.lifecycleTrace, countEvent_append,
      countEvent_replicate_poll _ _ (by decide)]
    rfl
  · rw [SpFuture.lifecycleTrace, countEvent_append,
      countEvent_replicate_poll _ _ (by decide)]
    rfl
  · exact ⟨List.replicate n SpEvent.pollStep, [],
      [SpEvent.dropSp, SpEvent.deallocSp], rfl⟩
  · exact ⟨List.replicate n SpEvent.pollStep ++ [SpEvent.dropFut], [],
      [SpEvent.deallocSp], by simp [SpFuture.lifecycleTrace, SpFuture.dropTrace]⟩
  · exact ⟨List.replicate n SpEvent.pollStep
        ++ [SpEvent.dropFut, SpEvent.deallocFut], [], [],
      by simp [SpFuture.lifecycleTrace, SpFuture.dropTrace]⟩

/-- C9: polling the Scoped Async Owner is transparent delegation — for
every inner computation and owner state, the owner's poll result is
exactly the inner computation's poll result, unobserved and unmodified,
the computation's state advances exactly as the inner poll advances it,
and neither bundled allocation is freed or replaced (both pointers are
unchanged). -/
theorem sp_future_poll_delegation (σf α : Type) (inner : σf → α × σf)
    (st : SpFutureState σf) :
    (SpFuture.poll inner st).1 = (inner st.futState).1
    ∧ (SpFuture.poll inner st).2.futState = (inner st.futState).2
    ∧ (SpFuture.poll inner st).2.spPtr = st.spPtr
    ∧ (SpFuture.poll inner st).2.futPtr = st.futPtr := by
  rcases hg : inner st.futState with ⟨r, f1⟩
  simp [SpFuture.poll, hg]

end Teloc

namespace Teloc

/-- Modelled from the spec: the `ServiceProvider` registry type itself is
not in the source snapshot (only its callers in actix_support.rs, e.g.
`self.sp.fork_arc()._add::<HttpRequestContainer>(req)`, are). Following
spec §3 and §4.3: a registry is an ordered sequence of providers tagged
with the output type they produce (types are `Nat` tags, a provider's
observable outcome a value of `V`); a forked child holds a reference to
its parent (here: contains it, unchanged) with its own local providers
conceptually prepended in front of the parent's sequence. -/
inductive Registry (V : Type) where
  | root (locals : List (Nat × V)) : Registry V
  | child (locals : List (Nat × V)) (parent : Registry V) : Registry V

/-- First provider in a local provider sequence producing the requested
type tag. -/
def lookupLocal {V : Type} : List (Nat × V) → Nat → Option V
  | [], _ => none
  | (k, v) :: rest, t => if t = k then some v else lookupLocal rest t

/-- Modelled from the spec (§4.2, §4.3): type-directed lookup over the
local-then-parent provider chain — local providers shadow parent providers
producing the same type; a forked registry resolves exactly like a root
one otherwise. -/
def Registry.resolve {V : Type} : Registry V → Nat → Option V
  | .root ls, t => lookupLocal ls t
  | .child ls p, t =>
    match lookupLocal ls t with
    | some v => some v
    | none => Registry.resolve p t

/-- Modelled from the spec (§4.3, §6): `fork()` derives a child registry
that sees everything in the parent plus new local providers, sharing (not
copying) the parent. -/
def Registry.fork {V : Type} (r : Registry V) : Registry V :=
  Registry.child [] r

/-- Modelled from the spec (§3, §6): registering one more provider
prepends it to the registry's local provider sequence. -/
def Registry.add {V : Type} (r : Registry V) (t : Nat) (v : V) : Registry V :=
  match r with
  | .root ls => .root ((t, v) :: ls)
  | .child ls p => .child ((t, v) :: ls) p

end Teloc

namespace Teloc

/-- C8: when a parent registry resolves type `x` to `vp` and a forked
child additionally registers its own provider `vc` for `x`, the child
resolves `x` to `vc` (shadowing), the parent still resolves `x` to `vp`,
a different child forked from the same parent that registers only some
other type `y ≠ x` resolves `x` to the parent's `vp`, and forking does not
mutate the parent: the fork is exactly a child layer in front of the
untouched parent value. -/
theorem scope_shadowing (V : Type) (parent : Registry V) (x y : Nat)
    (vp vc w : V) (hp : parent.resolve x = some vp) (hy : y ≠ x) :
    ((parent.fork.add x vc).resolve x = some vc)
    ∧ (parent.resolve x = some vp)
    ∧ ((parent.fork.add y w).resolve x = some vp)
    ∧ (parent.fork = Registry.child [] parent) := by
  refine ⟨?_, hp, ?_, rfl⟩
  · simp [Registry.fork, Registry.add, Registry.resolve, lookupLocal]
  · have hxy : x ≠ y := fun h => hy h.symm
    simp [Registry.fork, Registry.add, Registry.resolve, lookupLocal, hxy, hp]

/-- Witness for C8: a parent with provider `1 ↦ 10`, a child shadowing
with `1 ↦ 20`, another child adding only `2 ↦ 30`. -/
theorem scope_shadowing_witness :
    (Registry.resolve (Registry.root [(1, 10)]) 1 = some 10)
    ∧ ((2 : Nat) ≠ 1)
    ∧ (((Registry.root [(1, (10 : Nat))]).fork.add 1 20).resolve 1 = some 20
      ∧ (Registry.root [(1, (10 : Nat))]).resolve 1 = some 10
      ∧ (((Registry.root [(1, (10 : Nat))]).fork.add 2 30).resolve 1 = some 10)
      ∧ ((Registry.root [(1, (10 : Nat))]).fork
          = Registry.child [] (Registry.root [(1, 10)]))) :=
  ⟨by decide, by decide,
    scope_shadowing Nat (Registry.root [(1, 10)]) 1 2 10 20 30
      (by decide) (by decide)⟩

end Teloc

namespace Teloc

/-- Embedding of `std::rc::Rc<T>` as far as the accessor layer observes
it: a shared pointer whose `as_ref` yields the one shared stored value. -/
structure Rc (T : Type) where
  val : T

/-- `pub struct ContainerWrapper<T>(pub T)` (lib.rs:41). -/
structure ContainerWrapper (C : Type) where
  fst : C

/-- `GetRef<T> for ContainerWrapper<C> where ContainerWrapper<C>:
GetRef<Rc<T>>` (lib.rs:14-21): `GetRef::<Rc<T>>::get_ref(self).as_ref()` —
dereference the stored shared `Rc` to reach the shared stored value. The
underlying capability is the function `get_ref_rc`. -/
def GetRef.via_rc {C T : Type} (get_ref_rc : ContainerWrapper C → Rc T)
    (w : ContainerWrapper C) : T :=
  (get_ref_rc w).val

/-- `GetClone<T> for ContainerWrapper<C> where ContainerWrapper<C>:
GetRef<T>` (lib.rs:23-31, and the `Rc` variant at 32-39 after its
`get_ref()` call resolves to `GetRef<T>`): `self.get_ref().clone()` — the
clone of whatever reference `get_ref` returns, with `&self` untouched. -/
def GetClone.get_clone {C T : Type} (get_ref : ContainerWrapper C → T)
    (clone : T → T) (w : ContainerWrapper C) : T :=
  clone (get_ref w)

/-- C10: whenever a `get_ref` capability for `T` is available, `get_clone`
returns exactly the clone of the reference `get_ref` returns, for every
wrapper (and, being a function of `&self`, leaves the wrapper unchanged);
when the wrapper stores an `Rc<T>`, `get_ref` for `T` is exactly the
dereference of that shared `Rc`, so a content-preserving clone through the
`Rc` path yields exactly the shared stored value. -/
theorem container_wrapper_get_clone (C T : Type)
    (get_ref : ContainerWrapper C → T) (get_ref_rc : ContainerWrapper C → Rc T)
    (clone : T → T) (w : ContainerWrapper C) (hclone : ∀ t, clone t = t) :
    GetClone.get_clone get_ref clone w = clone (get_ref w)
    ∧ GetRef.via_rc get_ref_rc w = (get_ref_rc w).val
    ∧ GetClone.get_clone (GetRef.via_rc get_ref_rc) clone w = (get_ref_rc w).val := by
  refine ⟨rfl, rfl, ?_⟩
  simp [GetClone.get_clone, GetRef.via_rc, hclone]

/-- Witness for C10 with a concrete wrapper storing `Rc 9` and the
identity duplication. -/
theorem container_wrapper_get_clone_witness :
    (∀ t : Nat, (fun x : Nat => x) t = t) ∧
    (GetClone.get_clone (fun w : ContainerWrapper Nat => w.fst)
        (fun x : Nat => x) (ContainerWrapper.mk 9)
      = (fun x : Nat => x) ((fun w : ContainerWrapper Nat => w.fst)
          (ContainerWrapper.mk 9))
    ∧ GetRef.via_rc (fun _ : ContainerWrapper Nat => Rc.mk 9)
        (ContainerWrapper.mk 9)
      = ((fun _ : ContainerWrapper Nat => Rc.mk 9) (ContainerWrapper.mk 9)).val
    ∧ GetClone.get_clone
        (GetRef.via_rc (fun _ : ContainerWrapper Nat => Rc.mk 9))
        (fun x : Nat => x) (ContainerWrapper.mk 9)
      = ((fun _ : ContainerWrapper Nat => Rc.mk 9) (ContainerWrapper.mk 9)).val) :=
  ⟨fun _ => rfl,
    container_wrapper_get_clone Nat Nat (fun w => w.fst)
      (fun _ => Rc.mk 9) (fun x => x) (ContainerWrapper.mk 9) (fun _ => rfl)⟩

end Teloc
